import Mathlib

/-!
Verification of the osu! scorecard generator's normalization and layout logic
(`public/script.js`) against its natural-language specification.

The JavaScript is shallowly embedded: JS numbers that can be `NaN` are
modelled as `Option ℤ` (integer-valued paths through `parseInt`) or
`Option ℚ` (fractional paths through `parseFloat`), where `none` stands for
`NaN`.  DOM reads (override input fields, measured element sizes, the
gradient canvas) are passed as explicit arguments, following the spec's own
design note that the core is "a pure function from normalized input to
layout description".
-/

/-! ## JS string and number primitives -/

/-- Whitespace test used by the models of `String.prototype.trim`,
`parseInt` and `parseFloat` (the common ASCII whitespace characters). -/
def jsWhitespace (c : Char) : Bool :=
  c == ' ' || c == '\t' || c == '\n' || c == '\r'

/-- Model of `String.prototype.trim`: strip leading and trailing whitespace. -/
def jsTrim (s : String) : String :=
  ⟨((s.data.dropWhile jsWhitespace).reverse.dropWhile jsWhitespace).reverse⟩

/-- Model of `String.prototype.toUpperCase` on the ASCII range. -/
def jsToUpper (s : String) : String :=
  ⟨s.data.map Char.toUpper⟩

/-- Numeric value of a list of decimal digit characters. -/
def digitsVal (ds : List Char) : ℕ :=
  ds.foldl (fun acc c => 10 * acc + (c.toNat - '0'.toNat)) 0

/-- Model of JS `parseInt(s)` (radix 10): skip leading whitespace, optional
sign, then the longest run of decimal digits; `none` models the `NaN`
result when no digits are found.  (The `0x` hex-prefix special case of the
builtin is outside the inputs this program feeds it.) -/
def jsParseInt (s : String) : Option ℤ :=
  let cs := s.data.dropWhile jsWhitespace
  let signed : ℤ × List Char :=
    match cs with
    | '-' :: rest => (-1, rest)
    | '+' :: rest => (1, rest)
    | _ => (1, cs)
  let ds := signed.2.takeWhile Char.isDigit
  if ds = [] then none else some (signed.1 * (digitsVal ds : ℤ))

/-- Model of JS `parseFloat(s)` on plain decimal literals: skip leading
whitespace, optional sign, integer digits, optional point and fraction
digits; `none` models `NaN`.  (Exponents and `Infinity`, which this program
never feeds it, are not modelled.) -/
def jsParseFloat (s : String) : Option ℚ :=
  let cs := s.data.dropWhile jsWhitespace
  let signed : ℚ × List Char :=
    match cs with
    | '-' :: rest => (-1, rest)
    | '+' :: rest => (1, rest)
    | _ => (1, cs)
  let intPart := signed.2.takeWhile Char.isDigit
  let rest := signed.2.dropWhile Char.isDigit
  let fracPart : List Char :=
    match rest with
    | '.' :: more => more.takeWhile Char.isDigit
    | _ => []
  if intPart = [] ∧ fracPart = [] then none
  else some (signed.1 * ((digitsVal intPart : ℚ) +
    (digitsVal fracPart : ℚ) / (10 : ℚ) ^ fracPart.length))

/-- Model of JS `Math.round`: round half toward positive infinity. -/
def jsRound (q : ℚ) : ℤ :=
  Int.floor (q + 1 / 2)

/-- Insert a thousands separator after every third character of a
least-significant-first digit list. -/
def groupRev : List Char → List Char
  | a :: b :: c :: d :: rest => a :: b :: c :: ',' :: groupRev (d :: rest)
  | l => l

/-- Decimal rendering of a natural number with comma thousands separators. -/
def formatNat (n : ℕ) : String :=
  ⟨(groupRev (Nat.toDigits 10 n).reverse).reverse⟩

/-- Model of `formatScore` (source line 136): `Number.prototype.toLocaleString`
with comma grouping; a `NaN` argument renders as the string "NaN". -/
def formatScore : Option ℤ → String
  | none => "NaN"
  | some z => if z < 0 then "-" ++ formatNat z.natAbs else formatNat z.natAbs

/-! ## Mods parsing (source `parseModsString`, lines 545-556) -/

/-- A mod descriptor as consumed by `generateModIconsHtml`. -/
structure ScoreMod where
  acronym : String
deriving DecidableEq

/-- The regex test `/^[A-Z]{2}$/` from the source: exactly two characters,
each an uppercase ASCII letter. -/
def isTwoUpper (s : String) : Bool :=
  s.data.length == 2 && s.data.all (fun c => decide ('A' ≤ c ∧ c ≤ 'Z'))

/-- Split a character list at every occurrence of a separator character,
keeping empty pieces, as JS `String.prototype.split` does with a
one-character separator. -/
def splitOnChar (sep : Char) : List Char → List (List Char)
  | [] => [[]]
  | c :: rest =>
    if c = sep then [] :: splitOnChar sep rest
    else
      match splitOnChar sep rest with
      | [] => [[c]]
      | piece :: pieces => (c :: piece) :: pieces

/-- Model of JS `s.split(sep)` for a one-character separator. -/
def jsSplit (s : String) (sep : Char) : List String :=
  (splitOnChar sep s.data).map (fun l => ⟨l⟩)

/-- Embedding of `parseModsString`: empty or blank input gives no mods;
otherwise split on commas, trim and uppercase each token, keep only the
tokens that pass the two-uppercase-letter test, and wrap each in a
descriptor. -/
def parseModsString (modsString : String) : List ScoreMod :=
  if jsTrim modsString = "" then []
  else
    let modCodes := (jsSplit modsString ',').map (fun m => jsToUpper (jsTrim m))
    let validMods := modCodes.filter (fun m => isTwoUpper m)
    validMods.map (fun code => ScoreMod.mk code)

/-! ## Text truncation (source `truncateText`, lines 157-159) -/

/-- Embedding of `truncateText`: if the text is longer than `maxLength`,
keep the first `maxLength - 2` characters and append a two-character
ellipsis, else return the text unchanged. -/
def truncateText (text : String) (maxLength : ℕ) : String :=
  if maxLength < text.data.length then ⟨text.data.take (maxLength - 2) ++ ['.', '.']⟩
  else text

/-! ## Title space (source `calculateTitleSpace`, lines 789-799) -/

/-- Embedding of `calculateTitleSpace`, with the DOM query for mod icons
replaced by the icon count it returns. -/
def calculateTitleSpace (modIconCount : ℕ) : ℤ :=
  let scorecardWidth : ℤ := 800
  let horizontalPadding : ℤ := 40
  let modIconsWidth : ℤ := (modIconCount : ℤ) * 70
  let minSpacing : ℤ := if 0 < modIconCount then 20 else 0
  max 200 (scorecardWidth - horizontalPadding - modIconsWidth - minSpacing)

/-! ## Claim C6 -/

/-- Claim C6: the mods parser splits on commas, trims and uppercases each
token, silently drops every token that is not exactly two uppercase
letters (so it never throws), and in particular the input "HD, dt ,xx1"
yields exactly the HD and DT descriptors. -/
theorem parseModsString_spec :
    parseModsString "HD, dt ,xx1" = [ScoreMod.mk "HD", ScoreMod.mk "DT"] ∧
    ∀ s : String, ∀ m ∈ parseModsString s, isTwoUpper m.acronym = true := by
  constructor
  · decide
  · intro s m hm
    unfold parseModsString at hm
    by_cases h : jsTrim s = ""
    · rw [if_pos h] at hm
      simp at hm
    · rw [if_neg h] at hm
      simp only [List.mem_map] at hm
      obtain ⟨code, hcode, rfl⟩ := hm
      exact (List.mem_filter.mp hcode).2

/-- Witness for C6: the universal part applied at the concrete input from
the claim and its first returned mod. -/
theorem parseModsString_spec_witness : isTwoUpper (ScoreMod.mk "HD").acronym = true :=
  parseModsString_spec.2 "HD, dt ,xx1" (ScoreMod.mk "HD") (by decide)

/-! ## Claim C7 -/

/-- Claim C7: the available title width is the 800 container width minus 40
horizontal padding minus 70 per mod icon minus a 20 spacing constant when
any icons are present, floored at the 200 minimum. -/
theorem calculateTitleSpace_spec :
    ∀ n : ℕ, calculateTitleSpace n =
        max 200 (800 - 40 - 70 * (n : ℤ) - (if 0 < n then 20 else 0)) ∧
      200 ≤ calculateTitleSpace n := by
  intro n
  constructor
  · unfold calculateTitleSpace
    ring_nf
  · unfold calculateTitleSpace
    exact le_max_left _ _

/-! ## Claim C10 -/

/-- A string that already fits is a fixed point of `truncateText`. -/
theorem truncateText_id_of_fit (r : String) (m : ℕ) (h : ¬ m < r.data.length) :
    truncateText r m = r := by
  unfold truncateText
  rw [if_neg h]

/-- Claim C10: for `maxLength ≥ 2`, `truncateText` returns the text
unchanged when it is short enough, otherwise the first `maxLength - 2`
characters followed by "..", the result never exceeds `maxLength`
characters, and re-truncating a truncated result changes nothing. -/
theorem truncateText_spec (text : String) (maxLength : ℕ) (h2 : 2 ≤ maxLength) :
    (text.data.length ≤ maxLength → truncateText text maxLength = text) ∧
    (maxLength < text.data.length →
      truncateText text maxLength = ⟨text.data.take (maxLength - 2) ++ ['.', '.']⟩) ∧
    (truncateText text maxLength).data.length ≤ max maxLength text.data.length ∧
    truncateText (truncateText text maxLength) maxLength = truncateText text maxLength := by
  by_cases h : maxLength < text.data.length
  · have hlen : (truncateText text maxLength).data.length = maxLength := by
      unfold truncateText
      rw [if_pos h]
      simp only [List.length_append, List.length_take]
      have : maxLength - 2 ≤ text.data.length := by omega
      simp only [List.length_cons, List.length_nil]
      omega
    refine ⟨fun hc => absurd hc (by omega), fun _ => by unfold truncateText; rw [if_pos h], ?_, ?_⟩
    · rw [hlen]; exact le_max_left _ _
    · exact truncateText_id_of_fit _ _ (by omega)
  · have heq : truncateText text maxLength = text := truncateText_id_of_fit _ _ h
    refine ⟨fun _ => heq, fun hc => absurd hc h, ?_, ?_⟩
    · rw [heq]; exact le_max_of_le_right (le_refl _)
    · rw [heq, heq]

/-- Witness for C10: the theorem applied to an 8-character string with
`maxLength = 4`: the result is "ab..", fits in 4 characters, and is a
fixed point of re-truncation. -/
theorem truncateText_spec_witness :
    truncateText "abcdefgh" 4 = ⟨("abcdefgh").data.take 2 ++ ['.', '.']⟩ ∧
    truncateText (truncateText "abcdefgh" 4) 4 = truncateText "abcdefgh" 4 :=
  ⟨(truncateText_spec "abcdefgh" 4 (by decide)).2.1 (by decide),
   (truncateText_spec "abcdefgh" 4 (by decide)).2.2.2⟩

/-! ## Score normalizer data model (source `extractScoreData`, lines 214-256) -/

/-- The `data.score` part of a fetched `currentScoreData` record. -/
structure UpstreamScore where
  score : ℤ
  classic_score : ℤ
  c300 : ℤ
  c100 : ℤ
  c50 : ℤ
  misses : ℤ
  cEnds : ℤ
  max_combo : ℤ
  accuracy : ℚ
  pp : ℚ
  rank : String
  mods : List ScoreMod
  leaderboard : ℤ
  full_combo : Bool
  cSliders : ℤ

/-- A fetched score record (`currentScoreData`): the lazer flag plus the
score fields the normalizer reads. -/
structure ScoreRecord where
  lazer : Bool
  score : UpstreamScore

/-- The override input fields read by `getScoreOverrides` (lines 559-574):
raw strings, where the empty string means the field is not overridden. -/
structure ScoreOverrides where
  score : String
  count300 : String
  count100 : String
  count50 : String
  countMiss : String
  countSliderEnds : String
  combo : String
  accuracy : String
  pp : String
  rank : String
  mods : String
  leaderboard : String

/-- The object produced by `extractScoreData`.  Numeric fields are
`Option` values because a non-empty override string that fails to parse
produces `NaN` (`none`).  `classic_score` is additionally optional at the
outer level because the map-preview branch builds an object without that
property at all. -/
structure ExtractedScore where
  score : Option ℤ
  classic_score : Option (Option ℤ)
  c300 : Option ℤ
  c100 : Option ℤ
  c50 : Option ℤ
  misses : Option ℤ
  cEnds : Option ℤ
  cSliders : ℤ
  max_combo : Option ℤ
  accuracy : Option ℚ
  pp : Option ℚ
  rank : String
  mods : List ScoreMod
  leaderboard : Option ℤ
  full_combo : Bool

/-- Embedding of the `currentScoreData` branch of `extractScoreData`
(lines 217-235): each field takes the parsed override when the override
string is non-empty, else the upstream value; the accuracy override is
divided by 100; `full_combo` and `cSliders` have no override inputs. -/
def extractScoreDataScore (data : ScoreRecord) (ov : ScoreOverrides) : ExtractedScore :=
  { score := if ov.score ≠ "" then jsParseInt ov.score
      else some (if data.lazer then data.score.score else data.score.classic_score)
  , classic_score :=
      some (if ov.score ≠ "" then jsParseInt ov.score else some data.score.classic_score)
  , c300 := if ov.count300 ≠ "" then jsParseInt ov.count300 else some data.score.c300
  , c100 := if ov.count100 ≠ "" then jsParseInt ov.count100 else some data.score.c100
  , c50 := if ov.count50 ≠ "" then jsParseInt ov.count50 else some data.score.c50
  , misses := if ov.countMiss ≠ "" then jsParseInt ov.countMiss else some data.score.misses
  , cEnds := if ov.countSliderEnds ≠ "" then jsParseInt ov.countSliderEnds
      else some data.score.cEnds
  , cSliders := data.score.cSliders
  , max_combo := if ov.combo ≠ "" then jsParseInt ov.combo else some data.score.max_combo
  , accuracy := if ov.accuracy ≠ "" then (jsParseFloat ov.accuracy).map (fun q => q / 100)
      else some data.score.accuracy
  , pp := if ov.pp ≠ "" then jsParseFloat ov.pp else some data.score.pp
  , rank := if ov.rank ≠ "" then ov.rank else data.score.rank
  , mods := if ov.mods ≠ "" then parseModsString ov.mods else data.score.mods
  , leaderboard := if ov.leaderboard ≠ "" then jsParseInt ov.leaderboard
      else some data.score.leaderboard
  , full_combo := data.score.full_combo }

/-- Embedding of the `currentMapData` branch of `extractScoreData`
(lines 236-254): the map-preview defaults, with `cSliders` fixed at 100,
no `classic_score` property, rank `"F"` and `full_combo` false. -/
def extractScoreDataMap (ov : ScoreOverrides) : ExtractedScore :=
  { score := if ov.score ≠ "" then jsParseInt ov.score else some 0
  , classic_score := none
  , c300 := if ov.count300 ≠ "" then jsParseInt ov.count300 else some 0
  , c100 := if ov.count100 ≠ "" then jsParseInt ov.count100 else some 0
  , c50 := if ov.count50 ≠ "" then jsParseInt ov.count50 else some 0
  , misses := if ov.countMiss ≠ "" then jsParseInt ov.countMiss else some 0
  , cEnds := if ov.countSliderEnds ≠ "" then jsParseInt ov.countSliderEnds else some 0
  , cSliders := 100
  , max_combo := if ov.combo ≠ "" then jsParseInt ov.combo else some 0
  , accuracy := if ov.accuracy ≠ "" then (jsParseFloat ov.accuracy).map (fun q => q / 100)
      else some 0
  , pp := if ov.pp ≠ "" then jsParseFloat ov.pp else some 0
  , rank := if ov.rank ≠ "" then ov.rank else "F"
  , mods := if ov.mods ≠ "" then parseModsString ov.mods else []
  , leaderboard := if ov.leaderboard ≠ "" then jsParseInt ov.leaderboard else some 0
  , full_combo := false }

/-- An override set with every input field left empty. -/
def emptyOverrides : ScoreOverrides :=
  ⟨"", "", "", "", "", "", "", "", "", "", "", ""⟩

/-! ## Claim C1 -/

/-- Modelled from the spec (amended): per-field resolution for an
integer-valued field — a non-empty override string is parsed with
`parseInt` and used even when the parse fails (yielding `NaN`), else the
upstream value when one exists, else the default. -/
def resolveIntField (ovStr : String) (upstream : Option ℤ) (dflt : ℤ) : Option ℤ :=
  if ovStr ≠ "" then jsParseInt ovStr else some (upstream.getD dflt)

/-- Modelled from the spec (amended): resolution for a fractional field
(`parseFloat`). -/
def resolveFloatField (ovStr : String) (upstream : Option ℚ) (dflt : ℚ) : Option ℚ :=
  if ovStr ≠ "" then jsParseFloat ovStr else some (upstream.getD dflt)

/-- Modelled from the spec (amended): resolution for the accuracy field —
the override is entered in percent and divided by 100. -/
def resolveAccuracyField (ovStr : String) (upstream : Option ℚ) (dflt : ℚ) : Option ℚ :=
  if ovStr ≠ "" then (jsParseFloat ovStr).map (fun q => q / 100)
  else some (upstream.getD dflt)

/-- Modelled from the spec (amended): resolution for the rank string. -/
def resolveStrField (ovStr : String) (upstream : Option String) (dflt : String) : String :=
  if ovStr ≠ "" then ovStr else upstream.getD dflt

/-- Modelled from the spec (amended): resolution for the mods list. -/
def resolveModsField (ovStr : String) (upstream : Option (List ScoreMod)) : List ScoreMod :=
  if ovStr ≠ "" then parseModsString ovStr else upstream.getD []

/-- An upstream score record used as a concrete sample. -/
def sampleUpstream : UpstreamScore :=
  { score := 1000000, classic_score := 987654, c300 := 5, c100 := 10, c50 := 0
  , misses := 1, cEnds := 50, max_combo := 800, accuracy := 97 / 100, pp := 250
  , rank := "S", mods := [], leaderboard := 3, full_combo := false, cSliders := 60 }

/-- A concrete fetched score record (classic score, `lazer = false`). -/
def sampleRecord : ScoreRecord :=
  ⟨false, sampleUpstream⟩

/-- Overrides in which only the 300-count field is set, to a string that
does not parse as a number. -/
def ovCount300Bad : ScoreOverrides :=
  { emptyOverrides with count300 := "abc" }

/-- Counterexample to claim C1 as stated: with the 300-count override
present but unparseable ("abc"), the resolved field is `NaN` (`none`), not
the upstream value 5 as the claim's "else use the upstream value" requires. -/
theorem extractScoreData_override_parse_failure_cex :
    (extractScoreDataScore sampleRecord ovCount300Bad).c300 = none ∧
    ¬ (extractScoreDataScore sampleRecord ovCount300Bad).c300
        = some sampleRecord.score.c300 := by
  constructor
  · decide
  · decide

/-- Claim C1 (amended): every field of the record produced by
`extractScoreData` is resolved independently, from its own override input
alone — the parsed override whenever the override string is non-empty
(even when parsing fails, in which case the field is `NaN` rather than
the upstream value), else the upstream value, else the documented default
(0 for counts, `"F"` rank, empty mod list); `full_combo` and the slider
count take the upstream value or the fixed defaults `false` and 100. -/
theorem extractScoreData_field_resolution (data : ScoreRecord) (ov : ScoreOverrides) :
    (extractScoreDataScore data ov).score
        = resolveIntField ov.score
            (some (if data.lazer then data.score.score else data.score.classic_score)) 0 ∧
    (extractScoreDataScore data ov).c300 = resolveIntField ov.count300 (some data.score.c300) 0 ∧
    (extractScoreDataScore data ov).c100 = resolveIntField ov.count100 (some data.score.c100) 0 ∧
    (extractScoreDataScore data ov).c50 = resolveIntField ov.count50 (some data.score.c50) 0 ∧
    (extractScoreDataScore data ov).misses
        = resolveIntField ov.countMiss (some data.score.misses) 0 ∧
    (extractScoreDataScore data ov).cEnds
        = resolveIntField ov.countSliderEnds (some data.score.cEnds) 0 ∧
    (extractScoreDataScore data ov).max_combo
        = resolveIntField ov.combo (some data.score.max_combo) 0 ∧
    (extractScoreDataScore data ov).accuracy
        = resolveAccuracyField ov.accuracy (some data.score.accuracy) 0 ∧
    (extractScoreDataScore data ov).pp = resolveFloatField ov.pp (some data.score.pp) 0 ∧
    (extractScoreDataScore data ov).rank = resolveStrField ov.rank (some data.score.rank) "F" ∧
    (extractScoreDataScore data ov).mods = resolveModsField ov.mods (some data.score.mods) ∧
    (extractScoreDataScore data ov).leaderboard
        = resolveIntField ov.leaderboard (some data.score.leaderboard) 0 ∧
    (extractScoreDataScore data ov).full_combo = data.score.full_combo ∧
    (extractScoreDataScore data ov).cSliders = data.score.cSliders ∧
    (extractScoreDataMap ov).score = resolveIntField ov.score none 0 ∧
    (extractScoreDataMap ov).c300 = resolveIntField ov.count300 none 0 ∧
    (extractScoreDataMap ov).c100 = resolveIntField ov.count100 none 0 ∧
    (extractScoreDataMap ov).c50 = resolveIntField ov.count50 none 0 ∧
    (extractScoreDataMap ov).misses = resolveIntField ov.countMiss none 0 ∧
    (extractScoreDataMap ov).cEnds = resolveIntField ov.countSliderEnds none 0 ∧
    (extractScoreDataMap ov).max_combo = resolveIntField ov.combo none 0 ∧
    (extractScoreDataMap ov).accuracy = resolveAccuracyField ov.accuracy none 0 ∧
    (extractScoreDataMap ov).pp = resolveFloatField ov.pp none 0 ∧
    (extractScoreDataMap ov).rank = resolveStrField ov.rank none "F" ∧
    (extractScoreDataMap ov).mods = resolveModsField ov.mods none ∧
    (extractScoreDataMap ov).leaderboard = resolveIntField ov.leaderboard none 0 ∧
    (extractScoreDataMap ov).full_combo = false ∧
    (extractScoreDataMap ov).cSliders = 100 := by
  refine ⟨rfl, rfl, rfl, rfl, rfl, rfl, rfl, rfl, rfl, rfl, rfl, rfl, rfl, rfl,
    rfl, rfl, rfl, rfl, rfl, rfl, rfl, rfl, rfl, rfl, rfl, rfl, rfl, rfl⟩

/-! ## Claim C9 -/

/-- Claim C9: in the map-preview branch, every un-overridden hit-stat field
defaults to zero, the slider count is the fixed placeholder 100, the rank
defaults to `"F"`, and `full_combo` is false regardless of overrides. -/
theorem extractScoreDataMap_defaults (ov : ScoreOverrides) :
    (ov.score = "" → (extractScoreDataMap ov).score = some 0) ∧
    (ov.count300 = "" → (extractScoreDataMap ov).c300 = some 0) ∧
    (ov.count100 = "" → (extractScoreDataMap ov).c100 = some 0) ∧
    (ov.count50 = "" → (extractScoreDataMap ov).c50 = some 0) ∧
    (ov.countMiss = "" → (extractScoreDataMap ov).misses = some 0) ∧
    (ov.countSliderEnds = "" → (extractScoreDataMap ov).cEnds = some 0) ∧
    (ov.combo = "" → (extractScoreDataMap ov).max_combo = some 0) ∧
    (ov.accuracy = "" → (extractScoreDataMap ov).accuracy = some 0) ∧
    (ov.pp = "" → (extractScoreDataMap ov).pp = some 0) ∧
    (ov.leaderboard = "" → (extractScoreDataMap ov).leaderboard = some 0) ∧
    (ov.rank = "" → (extractScoreDataMap ov).rank = "F") ∧
    (ov.mods = "" → (extractScoreDataMap ov).mods = []) ∧
    (extractScoreDataMap ov).cSliders = 100 ∧
    (extractScoreDataMap ov).full_combo = false := by
  refine ⟨fun h => ?_, fun h => ?_, fun h => ?_, fun h => ?_, fun h => ?_, fun h => ?_,
    fun h => ?_, fun h => ?_, fun h => ?_, fun h => ?_, fun h => ?_, fun h => ?_, rfl, rfl⟩
  all_goals simp [extractScoreDataMap, h]

/-- Witness for C9: the defaults theorem applied to the all-empty override
set. -/
theorem extractScoreDataMap_defaults_witness :
    (extractScoreDataMap emptyOverrides).c300 = some 0 ∧
    (extractScoreDataMap emptyOverrides).rank = "F" ∧
    (extractScoreDataMap emptyOverrides).cSliders = 100 ∧
    (extractScoreDataMap emptyOverrides).full_combo = false :=
  ⟨(extractScoreDataMap_defaults emptyOverrides).2.1 rfl,
   (extractScoreDataMap_defaults emptyOverrides).2.2.2.2.2.2.2.2.2.2.1 rfl,
   (extractScoreDataMap_defaults emptyOverrides).2.2.2.2.2.2.2.2.2.2.2.2.1,
   (extractScoreDataMap_defaults emptyOverrides).2.2.2.2.2.2.2.2.2.2.2.2.2⟩

/-! ## Claim C2 (source line 444 of `generateScorecardHtml`) -/

/-- JS truthiness for an optionally-present numeric field: `undefined`
(outer `none`), `NaN` (inner `none`) and 0 are falsy. -/
def jsTruthyNum : Option (Option ℤ) → Bool
  | some (some v) => decide (v ≠ 0)
  | _ => false

/-- Embedding of the score shown at line 444:
`isLazer ? scoreData.score : (scoreData.classic_score || scoreData.score)`. -/
def displayedScore (e : ExtractedScore) (isLazer : Bool) : Option ℤ :=
  if isLazer then e.score
  else
    match e.classic_score with
    | some cs => if jsTruthyNum (some cs) then cs else e.score
    | none => e.score

/-- A fetched lazer record whose classic total is exactly 0. -/
def zeroClassicRecord : ScoreRecord :=
  ⟨true, { sampleUpstream with classic_score := 0, score := 42 }⟩

/-- Counterexample to claim C2 as stated: for a record whose classic total
is 0, classic-mode display does not show the classic total — the JS `||`
falls through to the other score field (42 here). -/
theorem displayedScore_zero_classic_cex :
    zeroClassicRecord.score.classic_score = 0 ∧
    displayedScore (extractScoreDataScore zeroClassicRecord emptyOverrides) false = some 42 ∧
    ¬ displayedScore (extractScoreDataScore zeroClassicRecord emptyOverrides) false
        = some zeroClassicRecord.score.classic_score := by
  refine ⟨rfl, by decide, by decide⟩

/-- Claim C2 (amended): in modern (lazer) mode the displayed score is the
record's `score` field; in classic mode it is the classic total whenever
that total is present and truthy (non-zero, non-`NaN`), and otherwise the
`score` field (the JS `||` fallback, so a classic total of 0 displays the
`score` field); the displayed value is always one of the two fields, never
a combination. -/
theorem displayedScore_mode_selection (e : ExtractedScore) :
    displayedScore e true = e.score ∧
    (∀ cs : Option ℤ, e.classic_score = some cs → jsTruthyNum (some cs) = true →
      displayedScore e false = cs) ∧
    ((e.classic_score = none ∨
        ∃ cs, e.classic_score = some cs ∧ jsTruthyNum (some cs) = false) →
      displayedScore e false = e.score) ∧
    (∀ b : Bool, displayedScore e b = e.score ∨
      ∃ cs, e.classic_score = some cs ∧ displayedScore e b = cs) := by
  refine ⟨rfl, ?_, ?_, ?_⟩
  · intro cs hcs ht
    simp [displayedScore, hcs, ht]
  · intro h
    rcases h with h | ⟨cs, hcs, ht⟩
    · simp [displayedScore, h]
    · simp [displayedScore, hcs, ht]
  · intro b
    cases b
    · by_cases hn : e.classic_score = none
      · exact Or.inl (by simp [displayedScore, hn])
      · obtain ⟨cs, hcs⟩ := Option.ne_none_iff_exists'.mp hn
        by_cases ht : jsTruthyNum (some cs) = true
        · exact Or.inr ⟨cs, hcs, by simp [displayedScore, hcs, ht]⟩
        · exact Or.inl (by simp [displayedScore, hcs, ht])
    · exact Or.inl rfl

/-- Witness for C2: the amended theorem applied to the sample record, whose
classic total 987654 is truthy, in classic display mode. -/
theorem displayedScore_mode_selection_witness :
    displayedScore (extractScoreDataScore sampleRecord emptyOverrides) false = some 987654 :=
  (displayedScore_mode_selection (extractScoreDataScore sampleRecord emptyOverrides)).2.1
    (some 987654) (by decide) (by decide)

/-! ## Claim C5 (source `getPpDisplay`, lines 291-303) -/

/-- Embedding of `getPpDisplay`, with the DOM read of the loved-map pp
override input (`ppOverride`, a distinct input from the score pp override)
passed as an argument: on a loved map an empty override shows a bare heart
glyph and a non-empty one shows the rounded override with a heart suffix;
on any other map it shows the record's pp rounded with a "pp" suffix. -/
def getPpDisplay (scoreData : ExtractedScore) (isLoved : Bool) (ppOverride : String) : String :=
  if isLoved then
    if ppOverride = "" then "♥"
    else formatScore (Option.map jsRound (jsParseFloat ppOverride)) ++ "pp ♥"
  else formatScore (Option.map jsRound scoreData.pp) ++ "pp"

/-- Claim C5: on a loved map the display is a heart glyph, unless the pp
override is set, in which case it is the rounded overridden value with a
heart suffix; on a non-loved map it is always the record's performance
value rounded to an integer with a "pp" suffix, independent of the loved
pp override input. -/
theorem getPpDisplay_spec (sd : ExtractedScore) (ppOv : String) :
    getPpDisplay sd true "" = "♥" ∧
    (ppOv ≠ "" → getPpDisplay sd true ppOv
        = formatScore (Option.map jsRound (jsParseFloat ppOv)) ++ "pp ♥") ∧
    getPpDisplay sd false ppOv = formatScore (Option.map jsRound sd.pp) ++ "pp" ∧
    (∀ other : String, getPpDisplay sd false ppOv = getPpDisplay sd false other) := by
  refine ⟨rfl, fun h => ?_, rfl, fun _ => rfl⟩
  unfold getPpDisplay
  rw [if_pos rfl, if_neg h]

/-- Witness for C5: the loved-with-override case at the concrete override
"640.2", which rounds to 640. -/
theorem getPpDisplay_spec_witness :
    getPpDisplay (extractScoreDataMap emptyOverrides) true "640.2"
        = formatScore (Option.map jsRound (jsParseFloat "640.2")) ++ "pp ♥" ∧
    formatScore (Option.map jsRound (jsParseFloat "640.2")) ++ "pp ♥" = "640pp ♥" := by
  refine ⟨(getPpDisplay_spec (extractScoreDataMap emptyOverrides) "640.2").2.1 (by decide), ?_⟩
  rw [show jsParseFloat "640.2"
      = some ((1 : ℚ) * (((640 : ℕ) : ℚ) + ((2 : ℕ) : ℚ) / (10 : ℚ) ^ (1 : ℕ))) from rfl]
  rw [show ((1 : ℚ) * (((640 : ℕ) : ℚ) + ((2 : ℕ) : ℚ) / (10 : ℚ) ^ (1 : ℕ)))
      = 3201 / 5 by norm_num]
  simp only [Option.map_some']
  rw [show jsRound (3201 / 5) = 640 by
    unfold jsRound
    rw [show (3201 : ℚ) / 5 + 1 / 2 = 6407 / 10 by norm_num]
    norm_num [Int.floor_eq_iff]]
  decide

/-! ## Gradient colour (source `getGradientColour`, lines 101-133) -/

/-- The fallback colour table of `getGradientColour`, keyed by the (possibly
negative) floored star rating; `none` models a missed object-key lookup. -/
def fallbackColourMap (index : ℤ) : Option String :=
  if index = 0 then some "#666666"
  else if index = 1 then some "#4FC3F7"
  else if index = 2 then some "#4CAF50"
  else if index = 3 then some "#FFEB3B"
  else if index = 4 then some "#FF9800"
  else if index = 5 then some "#FF5722"
  else if index = 6 then some "#E91E63"
  else if index = 7 then some "#9C27B0"
  else if index = 8 then some "#673AB7"
  else if index = 9 then some "#3F51B5"
  else if index = 10 then some "#000000"
  else none

/-- The loaded gradient canvas: its pixel grid, with positive width as any
successfully loaded image has. -/
structure GradientRamp where
  width : ℕ
  height : ℕ
  pixel : ℕ → ℕ → ℕ × ℕ × ℕ
  width_pos : 0 < width

/-- Model of `toString(16).padStart(2, '0')` for a colour byte. -/
def byteToHex (n : ℕ) : String :=
  let ds := Nat.toDigits 16 n
  ⟨List.replicate (2 - ds.length) '0' ++ ds⟩

/-- The no-canvas early return of `getGradientColour` (lines 103-112):
index the discrete table by `Math.min(Math.floor(starRating), 10)` and
fall back to the sentinel "#ff6b6b" on a key miss. -/
def gradientFallbackColour (starRating : ℚ) : String :=
  (fallbackColourMap (min (Int.floor starRating) 10)).getD "#ff6b6b"

/-- The canvas-sampling path of `getGradientColour` (lines 114-128): clamp
the rating to [0, 10], scale to a pixel column, sample, and render the
pixel as a hex colour.  (The `getImageData` exception path, which also
returns the sentinel, is environmental and not modelled.) -/
def gradientRampColour (g : GradientRamp) (starRating : ℚ) : String :=
  let clamped : ℚ := max 0 (min 10 starRating)
  let position : ℚ := clamped / 10
  let x : ℕ := (Int.floor (position * ((g.width : ℚ) - 1))).toNat
  let y : ℕ := g.height / 2
  let p := g.pixel x y
  "#" ++ byteToHex p.1 ++ byteToHex p.2.1 ++ byteToHex p.2.2

/-- Embedding of `getGradientColour`: the fallback path when no gradient
canvas is loaded, the sampling path otherwise. -/
def getGradientColour (ramp : Option GradientRamp) (starRating : ℚ) : String :=
  match ramp with
  | none => gradientFallbackColour starRating
  | some g => gradientRampColour g starRating

/-! ## Claim C3 -/

set_option maxHeartbeats 1000000 in
/-- Any strictly negative index misses the fallback colour table. -/
theorem fallbackColourMap_neg (i : ℤ) (h : i < 0) : fallbackColourMap i = none := by
  unfold fallbackColourMap
  split_ifs <;> first | rfl | omega

/-- Counterexample to claim C3 as stated: in the fallback path the colour
at star rating -1 is the sentinel "#ff6b6b", not the colour at 0
("#666666"). -/
theorem getGradientColour_fallback_negative_cex :
    getGradientColour none (-1) = "#ff6b6b" ∧
    getGradientColour none 0 = "#666666" ∧
    ¬ getGradientColour none (-1) = getGradientColour none 0 := by
  have h1 : getGradientColour none (-1) = "#ff6b6b" := by
    show gradientFallbackColour (-1) = "#ff6b6b"
    unfold gradientFallbackColour
    rw [show Int.floor (-1 : ℚ) = -1 by norm_num]
    rfl
  have h2 : getGradientColour none 0 = "#666666" := by
    show gradientFallbackColour 0 = "#666666"
    unfold gradientFallbackColour
    rw [show Int.floor (0 : ℚ) = 0 by norm_num]
    rfl
  refine ⟨h1, h2, ?_⟩
  rw [h1, h2]
  decide

/-- Claim C3 (amended): both paths return a colour for every input.  In
the ramp path the rating is clamped, so every negative rating gives the
colour at 0 and every rating above 10 gives the colour at 10.  In the
fallback path ratings above 10 give the colour at 10, but negative
ratings miss the table and give the sentinel "#ff6b6b" instead of the
colour at 0. -/
theorem getGradientColour_clamping :
    (∀ g : GradientRamp, ∀ x : ℚ, x < 0 →
      getGradientColour (some g) x = getGradientColour (some g) 0) ∧
    (∀ g : GradientRamp, ∀ x : ℚ, 10 < x →
      getGradientColour (some g) x = getGradientColour (some g) 10) ∧
    (∀ x : ℚ, x < 0 → getGradientColour none x = "#ff6b6b") ∧
    (∀ x : ℚ, 10 < x → getGradientColour none x = getGradientColour none 10) := by
  refine ⟨?_, ?_, ?_, ?_⟩
  · intro g x hx
    show gradientRampColour g x = gradientRampColour g 0
    unfold gradientRampColour
    rw [show max 0 (min 10 x) = max 0 (min 10 (0 : ℚ)) by
      rw [min_eq_right (by linarith : x ≤ 10), max_eq_left hx.le]
      norm_num]
  · intro g x hx
    show gradientRampColour g x = gradientRampColour g 10
    unfold gradientRampColour
    rw [show max 0 (min 10 x) = max 0 (min 10 (10 : ℚ)) by
      rw [min_eq_left hx.le, min_self]]
  · intro x hx
    have hf : Int.floor x < 0 := by
      have h1 : (Int.floor x : ℚ) ≤ x := Int.floor_le x
      have h2 : (Int.floor x : ℚ) < 0 := lt_of_le_of_lt h1 hx
      exact_mod_cast h2
    show gradientFallbackColour x = "#ff6b6b"
    unfold gradientFallbackColour
    rw [min_eq_left (by omega : Int.floor x ≤ 10), fallbackColourMap_neg _ hf]
    rfl
  · intro x hx
    have hf : (10 : ℤ) ≤ Int.floor x := Int.le_floor.mpr (by exact_mod_cast hx.le)
    show gradientFallbackColour x = gradientFallbackColour 10
    unfold gradientFallbackColour
    rw [min_eq_right hf, show Int.floor (10 : ℚ) = 10 by norm_num, min_self]

/-- Witness for C3: the amended theorem applied to a concrete ramp (a
100-pixel-wide grid) at rating -1, and to the fallback path at ratings -2
and 12. -/
theorem getGradientColour_clamping_witness :
    getGradientColour (some ⟨100, 10, fun x y => (x, y, 0), by decide⟩) (-1)
        = getGradientColour (some ⟨100, 10, fun x y => (x, y, 0), by decide⟩) 0 ∧
    getGradientColour none (-2) = "#ff6b6b" ∧
    getGradientColour none 12 = getGradientColour none 10 :=
  ⟨getGradientColour_clamping.1 ⟨100, 10, fun x y => (x, y, 0), by decide⟩ (-1) (by norm_num),
   getGradientColour_clamping.2.2.1 (-2) (by norm_num),
   getGradientColour_clamping.2.2.2 12 (by norm_num)⟩

/-! ## Required height (source `calculateRequiredHeight`, lines 882-908) -/

/-- Embedding of `calculateRequiredHeight`.  The `.right-section` DOM
element is passed as an optional pair (scrollHeight, clientHeight), with
`none` modelling a missing element.  Lines of the extra text are counted
by splitting on the "<br>" sequences substituted for newlines upstream;
the source accumulates the two additions into `additionalHeight` before
adding the 600 base, which is written here as one sum. -/
def calculateRequiredHeight (extraText : String) (hasFullCombo : Bool)
    (rightSection : Option (ℕ × ℕ)) : ℤ :=
  600 +
    (if extraText ≠ "" then
      (if 2 < (extraText.splitOn "<br>").length
        then (((extraText.splitOn "<br>").length : ℤ) - 2) * 30 else 0)
    else 0) +
    (if hasFullCombo then
      match rightSection with
      | some hs => if (hs.2 : ℤ) < (hs.1 : ℤ)
          then max 0 ((hs.1 : ℤ) - (hs.2 : ℤ) + 20) else 0
      | none => 0
    else 0)

/-! ## Claim C4 -/

/-- Counterexample to claim C4 as stated: with a full-combo banner whose
content height 110 exceeds its container height 100, the required height
is 630 — base 600 plus (110 - 100 + 20) — not the 610 the claim's
compensation formula (content − container, floored at 0) predicts. -/
theorem calculateRequiredHeight_overflow_cex :
    calculateRequiredHeight "" true (some (110, 100)) = 630 ∧
    ¬ calculateRequiredHeight "" true (some (110, 100)) = 600 + (110 - 100) := by
  constructor
  · rfl
  · decide

/-- Modelled from the spec wording of C4 as amended: base height 600, plus
30 height units per auxiliary-text line beyond the first two, plus — when
the full-combo banner is shown and its content height exceeds its
container height — an overflow compensation of (content − container + 20),
else nothing. -/
def requiredHeightSpec (extraText : String) (hasFullCombo : Bool)
    (rightSection : Option (ℕ × ℕ)) : ℤ :=
  600 +
    (if extraText ≠ "" ∧ 2 < (extraText.splitOn "<br>").length
      then (((extraText.splitOn "<br>").length : ℤ) - 2) * 30 else 0) +
    (if hasFullCombo then
      match rightSection with
      | some hs => if hs.2 < hs.1 then (hs.1 : ℤ) - (hs.2 : ℤ) + 20 else 0
      | none => 0
    else 0)

/-- Claim C4 (amended): the required height is the base height constant 600
plus 30 units per auxiliary-text line beyond the first two plus, when the
full-combo banner's content height exceeds its container height, an
overflow compensation of (content − container + 20); the `Math.max(0, ·)`
in the source is redundant because the guarded difference is positive. -/
theorem calculateRequiredHeight_formula (extraText : String) (hasFullCombo : Bool)
    (rightSection : Option (ℕ × ℕ)) :
    calculateRequiredHeight extraText hasFullCombo rightSection
      = requiredHeightSpec extraText hasFullCombo rightSection := by
  unfold calculateRequiredHeight requiredHeightSpec
  have h1 : (if extraText ≠ "" then
        (if 2 < (extraText.splitOn "<br>").length
          then (((extraText.splitOn "<br>").length : ℤ) - 2) * 30 else 0)
      else 0)
      = (if extraText ≠ "" ∧ 2 < (extraText.splitOn "<br>").length
          then (((extraText.splitOn "<br>").length : ℤ) - 2) * 30 else 0) := by
    by_cases he : extraText = "" <;> simp [he]
  rw [h1]
  rcases rightSection with _ | ⟨content, container⟩
  · rfl
  · cases hasFullCombo
    · rfl
    · have h2 : (if (container : ℤ) < (content : ℤ)
            then max 0 ((content : ℤ) - (container : ℤ) + 20) else 0)
          = (if container < content then (content : ℤ) - (container : ℤ) + 20 else 0) := by
        by_cases hc : container < content
        · rw [if_pos (show (container : ℤ) < (content : ℤ) by exact_mod_cast hc), if_pos hc]
          omega
        · rw [if_neg (show ¬ (container : ℤ) < (content : ℤ) by exact_mod_cast hc), if_neg hc]
      show 600 +
            (if extraText ≠ "" ∧ 2 < (extraText.splitOn "<br>").length
              then (((extraText.splitOn "<br>").length : ℤ) - 2) * 30 else 0) +
            (if (container : ℤ) < (content : ℤ)
              then max 0 ((content : ℤ) - (container : ℤ) + 20) else 0)
          = 600 +
            (if extraText ≠ "" ∧ 2 < (extraText.splitOn "<br>").length
              then (((extraText.splitOn "<br>").length : ℤ) - 2) * 30 else 0) +
            (if container < content then (content : ℤ) - (container : ℤ) + 20 else 0)
      rw [h2]

/-! ## Title fitting (source `adjustTitleSize`, lines 802-829)

The live-canvas `getTextWidth` measurement is abstracted as an injected
measure `w : List Char → ℕ` (the source already rounds measurements up to
integers with `Math.ceil`), following the spec's design note. Titles are
character lists; `slice(0, -1)` is `dropLast`. -/

/-- The two-character ellipsis constant of `adjustTitleSize`. -/
def ellipsisChars : List Char := ['.', '.']

/-- The truncation loop of `adjustTitleSize` (lines 823-825): while the
candidate plus ellipsis measures wider than the available width and more
than 5 characters remain, drop the last character. -/
def truncLoop (w : List Char → ℕ) (avail : ℕ) (t : List Char) : List Char :=
  if _h : avail < w (t ++ ellipsisChars) ∧ 5 < t.length then truncLoop w avail t.dropLast
  else t
termination_by t.length
decreasing_by
  simp only [List.length_dropLast]
  omega

/-- One-step unfolding of the truncation loop. -/
theorem truncLoop_unfold (w : List Char → ℕ) (avail : ℕ) (t : List Char) :
    truncLoop w avail t =
      if avail < w (t ++ ellipsisChars) ∧ 5 < t.length then truncLoop w avail t.dropLast
      else t := by
  rw [truncLoop]
  split <;> rfl

/-- The loop never lengthens its input. -/
theorem truncLoop_length_le (w : List Char → ℕ) (avail : ℕ) (t : List Char) :
    (truncLoop w avail t).length ≤ t.length := by
  rw [truncLoop_unfold]
  split
  · have ih := truncLoop_length_le w avail t.dropLast
    have hd := List.length_dropLast t
    omega
  · exact Nat.le_refl _
termination_by t.length
decreasing_by
  simp only [List.length_dropLast]
  omega

/-- The loop never drops below the 5-character floor. -/
theorem truncLoop_five_le (w : List Char → ℕ) (avail : ℕ) (t : List Char)
    (h5 : 5 ≤ t.length) : 5 ≤ (truncLoop w avail t).length := by
  rw [truncLoop_unfold]
  split
  · rename_i hcond
    exact truncLoop_five_le w avail t.dropLast
      (by have := List.length_dropLast t; omega)
  · exact h5
termination_by t.length
decreasing_by
  simp only [List.length_dropLast]
  omega

/-- Loop postcondition: on exit either the result plus ellipsis fits, or
the length floor was reached. -/
theorem truncLoop_post (w : List Char → ℕ) (avail : ℕ) (t : List Char) :
    w (truncLoop w avail t ++ ellipsisChars) ≤ avail ∨ (truncLoop w avail t).length ≤ 5 := by
  rw [truncLoop_unfold]
  split
  · exact truncLoop_post w avail t.dropLast
  · rename_i hcond
    rcases le_or_lt (w (t ++ ellipsisChars)) avail with h1 | h1
    · exact Or.inl h1
    · have h2 : ¬ 5 < t.length := fun hl => hcond ⟨h1, hl⟩
      exact Or.inr (by omega)
termination_by t.length
decreasing_by
  simp only [List.length_dropLast]
  omega

/-- A loop result different from the input is strictly shorter, and the
loop entry condition held. -/
theorem truncLoop_length_lt (w : List Char → ℕ) (avail : ℕ) (t : List Char)
    (h : truncLoop w avail t ≠ t) :
    (truncLoop w avail t).length < t.length ∧ 5 < t.length := by
  by_cases hc : avail < w (t ++ ellipsisChars) ∧ 5 < t.length
  · refine ⟨?_, hc.2⟩
    rw [truncLoop_unfold, if_pos hc]
    have h1 := truncLoop_length_le w avail t.dropLast
    have h2 := List.length_dropLast t
    omega
  · rw [truncLoop_unfold, if_neg hc] at h
    exact absurd rfl h

/-- Re-running the loop on a floor-length result plus its ellipsis strips
exactly the ellipsis again (for any append-monotone measure). -/
theorem truncLoop_fixpoint_aux (w : List Char → ℕ) (avail : ℕ) (t : List Char)
    (mono : ∀ s u : List Char, w s ≤ w (s ++ u))
    (ht : t.length = 5) (hw : avail < w (t ++ ellipsisChars)) :
    truncLoop w avail (t ++ ellipsisChars) = t := by
  have hd1 : (t ++ ellipsisChars).dropLast = t ++ ['.'] := by
    rw [show t ++ ellipsisChars = (t ++ ['.']) ++ ['.'] by simp [ellipsisChars]]
    exact List.dropLast_concat
  have hd2 : (t ++ ['.']).dropLast = t := List.dropLast_concat
  have hw1 : avail < w ((t ++ ellipsisChars) ++ ellipsisChars) :=
    lt_of_lt_of_le hw (mono (t ++ ellipsisChars) ellipsisChars)
  have hw2 : avail < w ((t ++ ['.']) ++ ellipsisChars) := by
    rw [show (t ++ ['.']) ++ ellipsisChars = (t ++ ellipsisChars) ++ ['.'] by
      simp [ellipsisChars]]
    exact lt_of_lt_of_le hw (mono (t ++ ellipsisChars) ['.'])
  rw [truncLoop_unfold]
  rw [if_pos ⟨hw1, by rw [List.length_append, ht]; simp [ellipsisChars]⟩]
  rw [hd1]
  rw [truncLoop_unfold]
  rw [if_pos ⟨hw2, by rw [List.length_append, ht]; simp⟩]
  rw [hd2]
  rw [truncLoop_unfold]
  rw [if_neg (by rw [ht]; simp)]

/-- Embedding of `adjustTitleSize`: return the title unchanged when it
measures within the available width; otherwise run the truncation loop
and append the ellipsis exactly when at least one character was dropped.
(The DOM null-check early return and the `className` assignment are
presentation-only and not modelled.) -/
def adjustTitleSize (w : List Char → ℕ) (avail : ℕ) (title : List Char) : List Char :=
  if w title ≤ avail then title
  else if (truncLoop w avail title).length < title.length then
    truncLoop w avail title ++ ellipsisChars
  else truncLoop w avail title

/-! ## Claim C8 -/

/-- Claim C8: for every append-monotone text measure and every available
width, a title that already measures within the width is returned
unchanged, and re-running the fitting on an already-fitted (possibly
truncated) result changes nothing. -/
theorem adjustTitleSize_idempotent (w : List Char → ℕ) (avail : ℕ) (title : List Char)
    (mono : ∀ s u : List Char, w s ≤ w (s ++ u)) :
    (w title ≤ avail → adjustTitleSize w avail title = title) ∧
    adjustTitleSize w avail (adjustTitleSize w avail title) = adjustTitleSize w avail title := by
  have hfit_id : ∀ r : List Char, w r ≤ avail → adjustTitleSize w avail r = r := by
    intro r hr
    unfold adjustTitleSize
    rw [if_pos hr]
  refine ⟨hfit_id title, ?_⟩
  by_cases hfit : w title ≤ avail
  · rw [hfit_id title hfit]
    exact hfit_id title hfit
  · by_cases hlt : (truncLoop w avail title).length < title.length
    · have hft : adjustTitleSize w avail title = truncLoop w avail title ++ ellipsisChars := by
        unfold adjustTitleSize
        rw [if_neg hfit, if_pos hlt]
      rw [hft]
      by_cases hfit2 : w (truncLoop w avail title ++ ellipsisChars) ≤ avail
      · exact hfit_id _ hfit2
      · have hne : truncLoop w avail title ≠ title := by
          intro he
          rw [he] at hlt
          exact lt_irrefl _ hlt
        have h5 : 5 < title.length := (truncLoop_length_lt w avail title hne).2
        have hge : 5 ≤ (truncLoop w avail title).length :=
          truncLoop_five_le w avail title (by omega)
        have hle5 : (truncLoop w avail title).length ≤ 5 := by
          rcases truncLoop_post w avail title with hp | hp
          · exact absurd hp hfit2
          · exact hp
        have h5eq : (truncLoop w avail title).length = 5 := le_antisymm hle5 hge
        have hw : avail < w (truncLoop w avail title ++ ellipsisChars) :=
          Nat.lt_of_not_le hfit2
        have hfix : truncLoop w avail (truncLoop w avail title ++ ellipsisChars)
            = truncLoop w avail title :=
          truncLoop_fixpoint_aux w avail (truncLoop w avail title) mono h5eq hw
        unfold adjustTitleSize
        rw [if_neg hfit2, hfix, if_pos (by
          simp only [List.length_append, ellipsisChars, List.length_cons, List.length_nil]
          omega)]
    · have heq : truncLoop w avail title = title := by
        by_contra hne
        exact hlt (truncLoop_length_lt w avail title hne).1
      have hft : adjustTitleSize w avail title = title := by
        unfold adjustTitleSize
        rw [if_neg hfit, if_neg hlt, heq]
      rw [hft]
      exact hft

/-- Witness for C8: idempotence at the linear measure 30 per character,
available width 200, and a 10-character title (which truncates to the
5-character floor plus ellipsis). -/
theorem adjustTitleSize_idempotent_witness :
    adjustTitleSize (fun l => 30 * l.length) 200
        (adjustTitleSize (fun l => 30 * l.length) 200
          ['a', 'b', 'c', 'd', 'e', 'f', 'g', 'h', 'i', 'j'])
      = adjustTitleSize (fun l => 30 * l.length) 200
          ['a', 'b', 'c', 'd', 'e', 'f', 'g', 'h', 'i', 'j'] :=
  (adjustTitleSize_idempotent (fun l => 30 * l.length) 200
    ['a', 'b', 'c', 'd', 'e', 'f', 'g', 'h', 'i', 'j']
    (fun s u => by
      show 30 * s.length ≤ 30 * (s ++ u).length
      rw [List.length_append]
      omega)).2
